import Mathlib

/-!
# Verification of the `copyfile` file-picker navigation state machine

Shallow embedding of `filepicker/filepicker.go` (the `Model` type, its
`Update` function, the navigation stacks, and the selection helpers
`didSelectFile` / `DidSelectFile` / `DidSelectDisabledFile` / `canSelect`)
and of the surrounding program's `model.Update` from `main.go`.

Conventions of the embedding:
* Go `int` is modelled as `Int` (the code freely produces negative values
  such as `len(m.files) - m.Height`).
* A Go runtime error (slice index out of range) is modelled by the
  embedded function returning `Option.none`.
* Filesystem responses are modelled as data carried by each directory
  entry: `infoErr` is whether `f.Info()` fails, and `symlinkStat` is the
  result of `os.Stat(filepath.EvalSymlinks(join(dir, name)))` — `none`
  when that call fails, `some b` when it succeeds with `IsDir() = b`.
* `filepath.Join(dir, name)` is modelled as `dir ++ "/" ++ name` and the
  one-argument `filepath.Join(dir)` as `dir` (paths assumed clean);
  no claim below depends on path cleaning.
* Fields of the Go `Model` that no claim mentions (`id`, `Cursor`,
  `FileSelected`, `Styles`) are omitted.
-/

/-- One entry of a directory listing (`os.DirEntry` plus the filesystem
responses the picker queries about it, see the module docstring). -/
structure DirEntry where
  name : String
  isDir : Bool
  isSymlink : Bool
  infoErr : Bool
  symlinkStat : Option Bool
deriving DecidableEq

/-- One key binding: the list of key strings it matches
(`key.NewBinding(key.WithKeys(...))`). -/
structure Binding where
  keys : List String
deriving DecidableEq

/-- `key.Matches`: the key string is one of the binding's keys. -/
def keyMatches (k : String) (b : Binding) : Bool :=
  b.keys.contains k

/-- The `KeyMap` struct of the source (help texts dropped). -/
structure KeyMap where
  goToTop : Binding
  goToLast : Binding
  down : Binding
  up : Binding
  pageUp : Binding
  pageDown : Binding
  back : Binding
  openKey : Binding
  select : Binding
  quit : Binding
deriving DecidableEq

/-- `DefaultKeyMap` from the source, key lists verbatim. -/
def DefaultKeyMap : KeyMap where
  goToTop := ⟨["g"]⟩
  goToLast := ⟨["G"]⟩
  down := ⟨["j", "down", "ctrl+n"]⟩
  up := ⟨["k", "up", "ctrl+p"]⟩
  pageUp := ⟨["K", "pgup"]⟩
  pageDown := ⟨["J", "pgdown"]⟩
  back := ⟨["h", "backspace", "left", "esc"]⟩
  openKey := ⟨["l", "right", "enter"]⟩
  select := ⟨["enter"]⟩
  quit := ⟨["q", "ctrl+c"]⟩

/-- The picker `Model` struct (Go zero/irrelevant fields omitted,
see the module docstring). -/
structure Model where
  path : String
  pathUI : String
  currentDirectory : String
  allowedTypes : List String
  keyMap : KeyMap
  files : List DirEntry
  showHidden : Bool
  dirAllowed : Bool
  fileAllowed : Bool
  selected : Int
  selectedStack : List Int
  min : Int
  max : Int
  minStack : List Int
  maxStack : List Int
  height : Int
  autoHeight : Bool
  width : Int
deriving DecidableEq

/-- The messages `Update` can receive (`tea.Msg`): a finished directory
read, a failed directory read, a window resize, a key press, or any
other message (which the `switch` ignores). -/
inductive Msg where
  | readDirMsg (entries : List DirEntry)
  | errorMsg (err : String)
  | windowSize (height : Int) (width : Int)
  | keyMsg (k : String)
  | other
deriving DecidableEq

/-- The commands `Update` returns (`tea.Cmd`): nothing, a `readDir`
background read, or `tea.Quit`. -/
inductive Cmd where
  | none
  | readDir (path : String) (showHidden : Bool)
  | quit
deriving DecidableEq

/-- `marginBottom` constant from the source. -/
def marginBottom : Int := 5

/-- Go slice indexing `xs[i]` with an `int` index: `none` models the
runtime index-out-of-range error. -/
def idx? (xs : List DirEntry) (i : Int) : Option DirEntry :=
  if i < 0 then Option.none else xs[i.toNat]?

/-- `stack.Push`: `slice = append(slice, i)`. -/
def stackPush (s : List Int) (i : Int) : List Int :=
  s ++ [i]

/-- `m.pushView()`: push `min`, `max`, `selected` onto the three stacks. -/
def pushView (m : Model) : Model :=
  { m with
    minStack := stackPush m.minStack m.min
    maxStack := stackPush m.maxStack m.max
    selectedStack := stackPush m.selectedStack m.selected }

/-- `dir ++ "/" ++ name`, modelling `filepath.Join(dir, name)` on clean
paths. -/
def joinPath (dir name : String) : String :=
  dir ++ "/" ++ name

/-- Models `filepath.Dir` on clean paths: drop the last path component
("." when there is none, "/" for children of the root). No claim depends
on its exact value. -/
def dirPath (p : String) : String :=
  let parts := p.splitOn "/"
  if parts.length ≤ 1 then "."
  else
    let q := String.intercalate "/" parts.dropLast
    if q = "" then "/" else q

/-- Which branch of the `tea.KeyMsg` switch fires: `key.Matches` is
tried against the bindings in source order, first match wins. -/
inductive KeyAction where
  | goToTop
  | goToLast
  | down
  | up
  | pageDown
  | pageUp
  | back
  | openKey
  | noneAct
deriving DecidableEq

/-- The `switch { case key.Matches(...) ... }` dispatch of `Update`,
in source order (the `Quit` case is commented out in the source). -/
def matchKey (km : KeyMap) (k : String) : KeyAction :=
  if keyMatches k km.goToTop then KeyAction.goToTop
  else if keyMatches k km.goToLast then KeyAction.goToLast
  else if keyMatches k km.down then KeyAction.down
  else if keyMatches k km.up then KeyAction.up
  else if keyMatches k km.pageDown then KeyAction.pageDown
  else if keyMatches k km.pageUp then KeyAction.pageUp
  else if keyMatches k km.back then KeyAction.back
  else if keyMatches k km.openKey then KeyAction.openKey
  else KeyAction.noneAct

/-- `m.selected++` followed by the clamp `if m.selected >= len(m.files)`
from the `Down` branch. -/
def clampDown (m : Model) : Int :=
  if m.selected + 1 ≥ (m.files.length : Int) then (m.files.length : Int) - 1
  else m.selected + 1

/-- `Model.Update`, branch for `m.KeyMap.Down`. -/
def downBranch (m : Model) (_k : String) : Option (Model × Cmd) :=
  let s2 := clampDown m
  let mn := if s2 > m.max then m.min + 1 else m.min
  let mx := if s2 > m.max then m.max + 1 else m.max
  match idx? m.files s2 with
  | Option.none => Option.none
  | Option.some f =>
    let m1 := { m with selected := s2, min := mn, max := mx }
    if f.infoErr then Option.some (m1, Cmd.none)
    else if f.isDir then Option.some ({ m1 with pathUI := m.currentDirectory }, Cmd.none)
    else if m.fileAllowed then
      Option.some ({ m1 with pathUI := joinPath m.currentDirectory f.name }, Cmd.none)
    else Option.some (m1, Cmd.none)

/-- `m.selected--` followed by the clamp `if m.selected < 0` from the
`Up` branch. -/
def clampUp (m : Model) : Int :=
  if m.selected - 1 < 0 then 0 else m.selected - 1

/-- `Model.Update`, branch for `m.KeyMap.Up`. -/
def upBranch (m : Model) (_k : String) : Option (Model × Cmd) :=
  let s2 := clampUp m
  let mn := if s2 < m.min then m.min - 1 else m.min
  let mx := if s2 < m.min then m.max - 1 else m.max
  match idx? m.files s2 with
  | Option.none => Option.none
  | Option.some f =>
    let m1 := { m with selected := s2, min := mn, max := mx }
    if f.infoErr then Option.some (m1, Cmd.none)
    else if f.isDir then Option.some ({ m1 with pathUI := m.currentDirectory }, Cmd.none)
    else if m.fileAllowed then
      Option.some ({ m1 with pathUI := joinPath m.currentDirectory f.name }, Cmd.none)
    else Option.some (m1, Cmd.none)

/-- `Model.Update`, branch for `m.KeyMap.Back`. -/
def backBranch (m : Model) (_k : String) : Option (Model × Cmd) :=
  let dir := dirPath m.currentDirectory
  if m.selectedStack.length > 0 then
    match m.selectedStack.getLast?, m.minStack.getLast?, m.maxStack.getLast? with
    | Option.some s, Option.some mn, Option.some mx =>
        Option.some
          ({ m with
              currentDirectory := dir
              pathUI := dir
              selected := s
              min := mn
              max := mx
              selectedStack := m.selectedStack.dropLast
              minStack := m.minStack.dropLast
              maxStack := m.maxStack.dropLast },
            Cmd.readDir dir m.showHidden)
    | _, _, _ => Option.none
  else
    Option.some
      ({ m with
          currentDirectory := dir
          pathUI := dir
          selected := 0
          min := 0
          max := m.height - 1 },
        Cmd.readDir dir m.showHidden)

/-- `Model.Update`, branch for `m.KeyMap.Open` after the effective
directory flag `isDir` has been resolved (symlinks already followed). -/
def openResolved (m : Model) (k : String) (f : DirEntry) (isDir : Bool) :
    Option (Model × Cmd) :=
  if ((!isDir && m.fileAllowed) || (isDir && m.dirAllowed)) &&
      keyMatches k m.keyMap.select then
    Option.some ({ m with path := joinPath m.currentDirectory f.name }, Cmd.quit)
  else if !isDir then Option.some (m, Cmd.none)
  else
    let dir := joinPath m.currentDirectory f.name
    let m1 := pushView { m with currentDirectory := dir, pathUI := dir }
    Option.some ({ m1 with selected := 0, min := 0, max := m.height - 1 },
      Cmd.readDir dir m.showHidden)

/-- `Model.Update`, branch for `m.KeyMap.Open`. -/
def openBranch (m : Model) (k : String) : Option (Model × Cmd) :=
  if m.files.length = 0 then Option.some (m, Cmd.none)
  else
    match idx? m.files m.selected with
    | Option.none => Option.none
    | Option.some f =>
      if f.infoErr then Option.some (m, Cmd.none)
      else if f.isSymlink then
        match f.symlinkStat with
        | Option.none => Option.some (m, Cmd.none)
        | Option.some targetIsDir => openResolved m k f (f.isDir || targetIsDir)
      else openResolved m k f f.isDir

/-- `Model.Update` from the source: dispatch on the message, then on the
key binding. `Option.none` models a Go runtime error. -/
def update (m : Model) (msg : Msg) : Option (Model × Cmd) :=
  match msg with
  | Msg.readDirMsg entries =>
      Option.some ({ m with files := entries, max := m.height - 1 }, Cmd.none)
  | Msg.errorMsg _ => Option.some (m, Cmd.none)
  | Msg.windowSize h _ =>
      let m1 := if m.autoHeight then { m with height := h - marginBottom } else m
      Option.some ({ m1 with max := m1.height - 1 }, Cmd.none)
  | Msg.other => Option.some (m, Cmd.none)
  | Msg.keyMsg k =>
    match matchKey m.keyMap k with
    | KeyAction.goToTop =>
        Option.some ({ m with selected := 0, min := 0, max := m.height - 1 }, Cmd.none)
    | KeyAction.goToLast =>
        let len : Int := m.files.length
        Option.some ({ m with selected := len - 1, min := len - m.height, max := len - 1 },
          Cmd.none)
    | KeyAction.down => downBranch m k
    | KeyAction.up => upBranch m k
    | KeyAction.pageDown =>
        let len : Int := m.files.length
        let s1 := m.selected + m.height
        let s2 := if s1 ≥ len then len - 1 else s1
        let mn1 := m.min + m.height
        let mx1 := m.max + m.height
        let mx2 := if mx1 ≥ len then len - 1 else mx1
        let mn2 := if mx1 ≥ len then (len - 1) - m.height else mn1
        Option.some ({ m with selected := s2, min := mn2, max := mx2 }, Cmd.none)
    | KeyAction.pageUp =>
        let s1 := m.selected - m.height
        let s2 := if s1 < 0 then 0 else s1
        let mn1 := m.min - m.height
        let mx1 := m.max - m.height
        let mn2 := if mn1 < 0 then 0 else mn1
        let mx2 := if mn1 < 0 then m.height else mx1
        Option.some ({ m with selected := s2, min := mn2, max := mx2 }, Cmd.none)
    | KeyAction.back => backBranch m k
    | KeyAction.openKey => openBranch m k
    | KeyAction.noneAct => Option.some (m, Cmd.none)

/-- `strings.HasSuffix`, modelled on the character sequences of the two
strings (for valid UTF-8 a byte-level suffix is exactly a character-level
suffix, since a continuation byte never starts a string). -/
def strEndsWith (s post : String) : Bool :=
  List.isSuffixOf post.data s.data

/-- `canSelect`: true when `AllowedTypes` is empty or the given string
ends with one of the allowed suffixes. -/
def canSelect (m : Model) (file : String) : Bool :=
  if m.allowedTypes.length ≤ 0 then true
  else m.allowedTypes.any (fun ext => strEndsWith file ext)

/-- `didSelectFile` (lowercase) from the source. -/
def didSelectFile (m : Model) (msg : Msg) : Option (Bool × String) :=
  if m.files.length = 0 then Option.some (false, "")
  else
    match msg with
    | Msg.keyMsg k =>
      if !(keyMatches k m.keyMap.select) then Option.some (false, "")
      else
        match idx? m.files m.selected with
        | Option.none => Option.none
        | Option.some f =>
          if f.infoErr then Option.some (false, "")
          else if f.isSymlink then
            match f.symlinkStat with
            | Option.none => Option.some (false, "")
            | Option.some targetIsDir =>
              let isDir := f.isDir || targetIsDir
              if (!isDir && m.fileAllowed) ||
                  ((isDir && m.dirAllowed) && !(m.path = "")) then
                Option.some (true, m.path)
              else Option.some (false, "")
          else
            if (!f.isDir && m.fileAllowed) ||
                ((f.isDir && m.dirAllowed) && !(m.path = "")) then
              Option.some (true, m.path)
            else Option.some (false, "")
    | _ => Option.some (false, "")

/-- `DidSelectFile` from the source. -/
def DidSelectFile (m : Model) (msg : Msg) : Option (Bool × String) :=
  match didSelectFile m msg with
  | Option.none => Option.none
  | Option.some (didSel, p) =>
      if didSel && canSelect m p then Option.some (true, p)
      else Option.some (false, "")

/-- `DidSelectDisabledFile` from the source. -/
def DidSelectDisabledFile (m : Model) (msg : Msg) : Option (Bool × String) :=
  match didSelectFile m msg with
  | Option.none => Option.none
  | Option.some (didSel, p) =>
      if didSel && !(canSelect m p) then Option.some (true, p)
      else Option.some (false, "")

/-- `NewWithConfig` from the source (unset Go fields take their zero
values). -/
def NewWithConfig (height width : Int) (p : String) : Model where
  path := ""
  pathUI := p
  currentDirectory := p
  allowedTypes := []
  keyMap := DefaultKeyMap
  files := []
  showHidden := false
  dirAllowed := false
  fileAllowed := true
  selected := 0
  selectedStack := []
  min := 0
  max := 0
  minStack := []
  maxStack := []
  height := height
  autoHeight := false
  width := width

/-- The outer `model` struct of `main.go`. -/
structure AppModel where
  fp : Model
  selectedFile : String
  quitting : Bool
deriving DecidableEq

/-- The part of `main.go`'s `model.Update` after the quit shortcut:
run the picker's `Update`, then record `DidSelectFile`'s path. -/
def appUpdateCore (am : AppModel) (msg : Msg) : Option (AppModel × Cmd) :=
  match update am.fp msg with
  | Option.none => Option.none
  | Option.some (fp1, cmd) =>
    match DidSelectFile fp1 msg with
    | Option.none => Option.none
    | Option.some (didSel, p) =>
        Option.some
          ({ am with
              fp := fp1,
              selectedFile := if didSel then p else am.selectedFile },
            cmd)

/-- `model.Update` from `main.go`: "ctrl+c"/"q" quit immediately,
otherwise delegate to the picker and record any selection. -/
def appUpdate (am : AppModel) (msg : Msg) : Option (AppModel × Cmd) :=
  match msg with
  | Msg.keyMsg k =>
      if k = "ctrl+c" || k = "q" then
        Option.some ({ am with quitting := true }, Cmd.quit)
      else appUpdateCore am (Msg.keyMsg k)
  | _ => appUpdateCore am msg

/-- Iterated `update`, threading the model through a message list and
discarding commands (`Option.none` as soon as one step fails). -/
def updates (m : Model) : List Msg → Option Model
  | [] => Option.some m
  | msg :: rest =>
    match update m msg with
    | Option.none => Option.none
    | Option.some (m1, _) => updates m1 rest

/-- Effective directory flag computed by the `Open` branch after symlink
resolution: the nominal `IsDir`, or true when the symlink's stat
succeeded and reported a directory. -/
def effDir (f : DirEntry) : Bool :=
  f.isDir || (f.isSymlink && f.symlinkStat == Option.some true)

/-- Effective type computed by the `Open` / selection code paths:
`some true` = Directory, `some false` = File, `none` = the symlink stat
failed (those branches abort). -/
def effType? (f : DirEntry) : Option Bool :=
  if f.isSymlink then
    match f.symlinkStat with
    | Option.none => Option.none
    | Option.some b => Option.some (f.isDir || b)
  else Option.some f.isDir

/-- The model after a successful descend into directory entry `f`:
current directory joined, the three viewport values pushed, viewport
reset. -/
def descModel (m : Model) (f : DirEntry) : Model :=
  { m with
    currentDirectory := joinPath m.currentDirectory f.name
    pathUI := joinPath m.currentDirectory f.name
    selectedStack := stackPush m.selectedStack m.selected
    minStack := stackPush m.minStack m.min
    maxStack := stackPush m.maxStack m.max
    selected := 0
    min := 0
    max := m.height - 1 }

/-- Conditions under which an `Open` key press descends into the
highlighted entry `f`: the Open binding fires, the entry resolves to a
directory, and the select shortcut does not capture the event. -/
def descStep (m : Model) (k : String) (f : DirEntry) : Bool :=
  (decide (idx? m.files m.selected = Option.some f)) &&
  (decide (matchKey m.keyMap k = KeyAction.openKey)) &&
  !f.infoErr &&
  (!f.isSymlink || !(f.symlinkStat == Option.none)) &&
  effDir f &&
  !(m.dirAllowed && keyMatches k m.keyMap.select)

/-- A chain of N descends: each step's conditions hold in the state
produced by the previous step. -/
def descChain : Model → List (String × DirEntry) → Bool
  | _, [] => true
  | m, (k, f) :: rest => descStep m k f && descChain (descModel m f) rest

/-- The viewport well-formedness predicate of the containment claim:
cursor in range, window contains the cursor, window width equals the
viewport height. -/
def viewInv (m : Model) : Bool :=
  decide (1 ≤ m.height) && decide (0 ≤ m.selected) &&
  decide (m.selected < (m.files.length : Int)) &&
  decide (m.min ≤ m.selected) && decide (m.selected ≤ m.max) &&
  decide (m.max - m.min + 1 = m.height)

/-- A plain regular file entry with the given name. -/
def plainFile (n : String) : DirEntry :=
  { name := n, isDir := false, isSymlink := false, infoErr := false,
    symlinkStat := Option.none }

/-- A plain directory entry with the given name. -/
def plainDir (n : String) : DirEntry :=
  { name := n, isDir := true, isSymlink := false, infoErr := false,
    symlinkStat := Option.none }

/-- Concrete model for the confirm-gating scenario: one `.txt` file in
the listing, only `.md` selectable, files chooseable. -/
def mC1x : Model :=
  { NewWithConfig 2 80 "/docs" with
    files := [plainFile "notes.txt"], allowedTypes := [".md"], max := 1 }

/-- State after the confirm key on the disallowed `.txt` file: the
selection path is recorded anyway. -/
def mC1post : Model := { mC1x with path := "/docs/notes.txt" }

/-- Variant of `mC1x` with file selection disabled. -/
def mC1nf : Model := { mC1x with fileAllowed := false }

/-- App-level model holding one selectable `.md` file. -/
def mC1w : Model :=
  { NewWithConfig 2 80 "/docs" with
    files := [plainFile "a.md"], allowedTypes := [".md"], max := 1 }

/-- Outer program state wrapping `mC1w` before any selection. -/
def amC1w : AppModel := { fp := mC1w, selectedFile := "", quitting := false }

/-- Outer program state after confirming `a.md`. -/
def amC1wPost : AppModel :=
  { amC1w with
    fp := { mC1w with path := "/docs/a.md" }
    selectedFile := "/docs/a.md" }

/-- Concrete model with an empty listing (height 3). -/
def mC2x : Model := { NewWithConfig 3 80 "/start" with max := 2 }

/-- Concrete model with three files and viewport height 2, freshly
reset. -/
def mC3x : Model :=
  { NewWithConfig 2 80 "/d" with
    files := [plainFile "a", plainFile "b", plainFile "c"], max := 1 }

/-- Concrete model browsing directory `/b`, showing `/b`'s listing. -/
def mC4x : Model :=
  { NewWithConfig 3 80 "/b" with files := [plainFile "b-entry"], max := 2 }

/-- Concrete model whose listing holds one subdirectory. -/
def mC5x : Model :=
  { NewWithConfig 3 80 "/top" with files := [plainDir "sub"], max := 2 }

/-- Concrete model with a non-trivial viewport and an empty navigation
stack. -/
def mC6x : Model :=
  { NewWithConfig 3 80 "/a/b" with
    files := [plainFile "x", plainFile "y"], selected := 1, min := 1, max := 3 }

/-- Concrete model for the page-down overflow scenario: three files,
height 2, reset viewport. -/
def mC7x : Model :=
  { NewWithConfig 2 80 "/d" with
    files := [plainFile "a", plainFile "b", plainFile "c"], max := 1 }

/-- Concrete model for the page-up underflow scenario: scrolled to the
bottom of three files with height 2. -/
def mC7y : Model :=
  { NewWithConfig 2 80 "/d" with
    files := [plainFile "a", plainFile "b", plainFile "c"],
    selected := 2, min := 2, max := 3 }

/-- Concrete model with a non-empty listing, about to receive a failed
read. -/
def mC8a : Model :=
  { NewWithConfig 3 80 "/p" with files := [plainFile "kept"], max := 2 }

/-- Concrete model with an empty listing and `max` already at
`height - 1`. -/
def mC8b : Model := { NewWithConfig 3 80 "/p" with max := 2 }

/-- A symlink entry whose target stat fails (dangling link). -/
def fC9bad : DirEntry :=
  { name := "link", isDir := false, isSymlink := true, infoErr := false,
    symlinkStat := Option.none }

/-- The same entry as a plain regular file. -/
def fC9file : DirEntry := plainFile "link"

/-- A symlink entry whose target resolves to a directory. -/
def fC9dir : DirEntry :=
  { name := "link", isDir := false, isSymlink := true, infoErr := false,
    symlinkStat := Option.some true }

/-- Concrete model highlighting the dangling symlink, files selectable
with no extension filter. -/
def mC9a : Model :=
  { NewWithConfig 3 80 "/s" with files := [fC9bad], max := 2 }

/-- Same model but the entry is a plain file. -/
def mC9b : Model :=
  { NewWithConfig 3 80 "/s" with files := [fC9file], max := 2 }

/-- Same model but the symlink resolves to a directory. -/
def mC9c : Model :=
  { NewWithConfig 3 80 "/s" with files := [fC9dir], max := 2 }

/-- State after selecting the plain-file variant of the link entry. -/
def mC9bPost : Model := { mC9b with path := "/s/link" }

/-- Concrete model with an empty listing for the selection-API claims. -/
def mC10x : Model := NewWithConfig 2 80 "/q"

theorem idx?_ne_none_of_some {xs : List DirEntry} {i : Int} {f : DirEntry}
    (h : idx? xs i = Option.some f) : xs ≠ [] := by
  intro h0
  subst h0
  simp [idx?] at h

theorem openResolved_descend (m : Model) (k : String) (f : DirEntry)
    (hnsel : (m.dirAllowed && keyMatches k m.keyMap.select) = false) :
    openResolved m k f true =
      Option.some (descModel m f,
        Cmd.readDir (joinPath m.currentDirectory f.name) m.showHidden) := by
  simp [openResolved, hnsel, pushView, descModel]

theorem update_descend (m : Model) (k : String) (f : DirEntry)
    (hmk : matchKey m.keyMap k = KeyAction.openKey)
    (hf : idx? m.files m.selected = Option.some f)
    (hinfo : f.infoErr = false)
    (heff : effDir f = true)
    (hsym : f.isSymlink = true → f.symlinkStat ≠ Option.none)
    (hnsel : (m.dirAllowed && keyMatches k m.keyMap.select) = false) :
    update m (Msg.keyMsg k) =
      Option.some (descModel m f,
        Cmd.readDir (joinPath m.currentDirectory f.name) m.showHidden) := by
  have hne : ¬ (m.files.length = 0) := by
    have := idx?_ne_none_of_some hf
    simpa [List.length_eq_zero] using this
  simp only [update, hmk]
  simp only [openBranch, if_neg hne, hf]
  cases hsl : f.isSymlink with
  | false =>
      have hd : f.isDir = true := by
        simpa [effDir, hsl] using heff
      simp only [hinfo, hsl, hd]
      simp only [Bool.false_eq_true, if_false]
      exact openResolved_descend m k f hnsel
  | true =>
      cases hstat : f.symlinkStat with
      | none => exact absurd hstat (hsym hsl)
      | some b =>
          have hd : (f.isDir || b) = true := by
            simpa [effDir, hsl, hstat] using heff
          simp only [hinfo, hsl, hstat]
          simp only [Bool.false_eq_true, if_false, hd]
          exact openResolved_descend m k f hnsel

theorem update_back_pop (m : Model) (k : String)
    (hmk : matchKey m.keyMap k = KeyAction.back)
    (s mn mx : Int) (s' mn' mx' : List Int)
    (hs : m.selectedStack = s' ++ [s])
    (hmn : m.minStack = mn' ++ [mn])
    (hmx : m.maxStack = mx' ++ [mx]) :
    update m (Msg.keyMsg k) =
      Option.some
        ({ m with
            currentDirectory := dirPath m.currentDirectory
            pathUI := dirPath m.currentDirectory
            selected := s
            min := mn
            max := mx
            selectedStack := s'
            minStack := mn'
            maxStack := mx' },
          Cmd.readDir (dirPath m.currentDirectory) m.showHidden) := by
  simp only [update, hmk, backBranch, hs, hmn, hmx]
  simp [List.getLast?_concat, List.dropLast_concat]

theorem updates_append (m : Model) (l1 l2 : List Msg) :
    updates m (l1 ++ l2) =
      match updates m l1 with
      | Option.none => Option.none
      | Option.some m1 => updates m1 l2 := by
  induction l1 generalizing m with
  | nil => simp [updates]
  | cons msg rest ih =>
      simp only [List.cons_append, updates]
      cases update m msg with
      | none => rfl
      | some p => exact ih p.1

theorem idx?_some_of_lt (xs : List DirEntry) (i : Int)
    (h0 : 0 ≤ i) (h1 : i < (xs.length : Int)) :
    ∃ f, idx? xs i = Option.some f := by
  have hn : i.toNat < xs.length := by omega
  refine ⟨xs[i.toNat], ?_⟩
  simp [idx?, List.getElem?_eq_getElem hn]
  omega

theorem downBranch_shape (m : Model) (k : String) (f : DirEntry)
    (hf : idx? m.files (clampDown m) = Option.some f) :
    ∃ m1, downBranch m k = Option.some (m1, Cmd.none) ∧
      m1.selected = clampDown m ∧
      m1.min = (if clampDown m > m.max then m.min + 1 else m.min) ∧
      m1.max = (if clampDown m > m.max then m.max + 1 else m.max) ∧
      m1.files = m.files ∧ m1.height = m.height ∧ m1.keyMap = m.keyMap := by
  simp only [downBranch, hf]
  split
  · exact ⟨_, rfl, rfl, rfl, rfl, rfl, rfl, rfl⟩
  · split
    · exact ⟨_, rfl, rfl, rfl, rfl, rfl, rfl, rfl⟩
    · split
      · exact ⟨_, rfl, rfl, rfl, rfl, rfl, rfl, rfl⟩
      · exact ⟨_, rfl, rfl, rfl, rfl, rfl, rfl, rfl⟩

theorem upBranch_shape (m : Model) (k : String) (f : DirEntry)
    (hf : idx? m.files (clampUp m) = Option.some f) :
    ∃ m1, upBranch m k = Option.some (m1, Cmd.none) ∧
      m1.selected = clampUp m ∧
      m1.min = (if clampUp m < m.min then m.min - 1 else m.min) ∧
      m1.max = (if clampUp m < m.min then m.max - 1 else m.max) ∧
      m1.files = m.files ∧ m1.height = m.height ∧ m1.keyMap = m.keyMap := by
  simp only [upBranch, hf]
  split
  · exact ⟨_, rfl, rfl, rfl, rfl, rfl, rfl, rfl⟩
  · split
    · exact ⟨_, rfl, rfl, rfl, rfl, rfl, rfl, rfl⟩
    · split
      · exact ⟨_, rfl, rfl, rfl, rfl, rfl, rfl, rfl⟩
      · exact ⟨_, rfl, rfl, rfl, rfl, rfl, rfl, rfl⟩

theorem viewInv_down (m : Model) (k : String)
    (hmk : matchKey m.keyMap k = KeyAction.down)
    (hInv : viewInv m = true) :
    ∃ m1, update m (Msg.keyMsg k) = Option.some (m1, Cmd.none) ∧
      viewInv m1 = true ∧ m1.keyMap = m.keyMap := by
  simp only [viewInv, Bool.and_eq_true, decide_eq_true_eq] at hInv
  obtain ⟨⟨⟨⟨⟨ih, i0⟩, i1⟩, i2⟩, i3⟩, i4⟩ := hInv
  have hs2a : 0 ≤ clampDown m := by
    simp only [clampDown]; split <;> omega
  have hs2b : clampDown m < (m.files.length : Int) := by
    simp only [clampDown]; split <;> omega
  obtain ⟨f, hf⟩ := idx?_some_of_lt m.files (clampDown m) hs2a hs2b
  obtain ⟨m1, hbr, e1, e2, e3, e4, e5, e6⟩ := downBranch_shape m k f hf
  refine ⟨m1, ?_, ?_, e6⟩
  · simp only [update, hmk, hbr]
  · simp only [viewInv, Bool.and_eq_true, decide_eq_true_eq, e1, e2, e3, e4, e5]
    have hcd : clampDown m ≤ m.max + 1 := by
      simp only [clampDown]; split <;> omega
    refine ⟨⟨⟨⟨⟨by omega, by omega⟩, by omega⟩, ?_⟩, ?_⟩, ?_⟩
    · split <;> simp only [clampDown] at * <;> split at hs2a <;> omega
    · split <;> simp only [clampDown] at * <;> split at hs2a <;> omega
    · split <;> omega

theorem viewInv_up (m : Model) (k : String)
    (hmk : matchKey m.keyMap k = KeyAction.up)
    (hInv : viewInv m = true) :
    ∃ m1, update m (Msg.keyMsg k) = Option.some (m1, Cmd.none) ∧
      viewInv m1 = true ∧ m1.keyMap = m.keyMap := by
  simp only [viewInv, Bool.and_eq_true, decide_eq_true_eq] at hInv
  obtain ⟨⟨⟨⟨⟨ih, i0⟩, i1⟩, i2⟩, i3⟩, i4⟩ := hInv
  have hs2a : 0 ≤ clampUp m := by
    simp only [clampUp]; split <;> omega
  have hs2b : clampUp m < (m.files.length : Int) := by
    simp only [clampUp]; split <;> omega
  obtain ⟨f, hf⟩ := idx?_some_of_lt m.files (clampUp m) hs2a hs2b
  obtain ⟨m1, hbr, e1, e2, e3, e4, e5, e6⟩ := upBranch_shape m k f hf
  refine ⟨m1, ?_, ?_, e6⟩
  · simp only [update, hmk, hbr]
  · simp only [viewInv, Bool.and_eq_true, decide_eq_true_eq, e1, e2, e3, e4, e5]
    refine ⟨⟨⟨⟨⟨by omega, by omega⟩, by omega⟩, ?_⟩, ?_⟩, ?_⟩
    · split <;> simp only [clampUp] at * <;> split at hs2a <;> omega
    · split <;> simp only [clampUp] at * <;> split at hs2a <;> omega
    · split <;> omega

theorem viewInv_goToTop (m : Model) (k : String)
    (hmk : matchKey m.keyMap k = KeyAction.goToTop)
    (hInv : viewInv m = true) :
    ∃ m1, update m (Msg.keyMsg k) = Option.some (m1, Cmd.none) ∧
      viewInv m1 = true ∧ m1.keyMap = m.keyMap := by
  simp only [viewInv, Bool.and_eq_true, decide_eq_true_eq] at hInv
  obtain ⟨⟨⟨⟨⟨ih, i0⟩, i1⟩, i2⟩, i3⟩, i4⟩ := hInv
  refine ⟨{ m with selected := 0, min := 0, max := m.height - 1 }, ?_, ?_, rfl⟩
  · simp only [update, hmk]
  · simp only [viewInv, Bool.and_eq_true, decide_eq_true_eq]
    refine ⟨⟨⟨⟨⟨by omega, by omega⟩, by omega⟩, by omega⟩, by omega⟩, by omega⟩

theorem downBranch_path (m : Model) (k : String) (m1 : Model) (c : Cmd)
    (h : downBranch m k = Option.some (m1, c)) :
    m1.path = m.path ∧ c = Cmd.none := by
  cases hidx : idx? m.files (clampDown m) with
  | none =>
      simp only [downBranch, hidx] at h
      exact Option.noConfusion h
  | some f =>
      simp only [downBranch, hidx] at h
      split at h
      · simp only [Option.some.injEq, Prod.mk.injEq] at h
        obtain ⟨h1, h2⟩ := h
        subst h1; subst h2; exact ⟨rfl, rfl⟩
      · split at h
        · simp only [Option.some.injEq, Prod.mk.injEq] at h
          obtain ⟨h1, h2⟩ := h
          subst h1; subst h2; exact ⟨rfl, rfl⟩
        · split at h <;>
          · simp only [Option.some.injEq, Prod.mk.injEq] at h
            obtain ⟨h1, h2⟩ := h
            subst h1; subst h2; exact ⟨rfl, rfl⟩

theorem upBranch_path (m : Model) (k : String) (m1 : Model) (c : Cmd)
    (h : upBranch m k = Option.some (m1, c)) :
    m1.path = m.path ∧ c = Cmd.none := by
  cases hidx : idx? m.files (clampUp m) with
  | none =>
      simp only [upBranch, hidx] at h
      exact Option.noConfusion h
  | some f =>
      simp only [upBranch, hidx] at h
      split at h
      · simp only [Option.some.injEq, Prod.mk.injEq] at h
        obtain ⟨h1, h2⟩ := h
        subst h1; subst h2; exact ⟨rfl, rfl⟩
      · split at h
        · simp only [Option.some.injEq, Prod.mk.injEq] at h
          obtain ⟨h1, h2⟩ := h
          subst h1; subst h2; exact ⟨rfl, rfl⟩
        · split at h <;>
          · simp only [Option.some.injEq, Prod.mk.injEq] at h
            obtain ⟨h1, h2⟩ := h
            subst h1; subst h2; exact ⟨rfl, rfl⟩

theorem backBranch_path (m : Model) (k : String) (m1 : Model) (c : Cmd)
    (h : backBranch m k = Option.some (m1, c)) :
    m1.path = m.path := by
  simp only [backBranch] at h
  split at h
  · split at h
    all_goals
      first
        | exact Option.noConfusion h
        | (simp only [Option.some.injEq, Prod.mk.injEq] at h
           obtain ⟨h1, h2⟩ := h
           subst h1; rfl)
  · simp only [Option.some.injEq, Prod.mk.injEq] at h
    obtain ⟨h1, h2⟩ := h
    subst h1; rfl

theorem openResolved_path (m : Model) (k : String) (f : DirEntry) (d : Bool)
    (m1 : Model) (c : Cmd)
    (h : openResolved m k f d = Option.some (m1, c))
    (hne : m1.path ≠ m.path) :
    (((!d && m.fileAllowed) || (d && m.dirAllowed)) &&
      keyMatches k m.keyMap.select) = true ∧
    m1 = { m with path := joinPath m.currentDirectory f.name } ∧ c = Cmd.quit := by
  simp only [openResolved] at h
  split at h
  · simp only [Option.some.injEq, Prod.mk.injEq] at h
    obtain ⟨h1, h2⟩ := h
    subst h1; subst h2
    refine ⟨by assumption, rfl, rfl⟩
  · split at h
    · simp only [Option.some.injEq, Prod.mk.injEq] at h
      obtain ⟨h1, h2⟩ := h
      subst h1
      exact absurd rfl hne
    · simp only [Option.some.injEq, Prod.mk.injEq] at h
      obtain ⟨h1, h2⟩ := h
      subst h1
      exact absurd rfl hne

theorem openBranch_path (m : Model) (k : String) (m1 : Model) (c : Cmd)
    (h : openBranch m k = Option.some (m1, c))
    (hne : m1.path ≠ m.path) :
    ∃ f d, idx? m.files m.selected = Option.some f ∧ f.infoErr = false ∧
      effType? f = Option.some d ∧
      (((!d && m.fileAllowed) || (d && m.dirAllowed)) &&
        keyMatches k m.keyMap.select) = true ∧
      m1 = { m with path := joinPath m.currentDirectory f.name } ∧ c = Cmd.quit := by
  by_cases hemp : m.files.length = 0
  · simp only [openBranch, if_pos hemp, Option.some.injEq, Prod.mk.injEq] at h
    obtain ⟨h1, h2⟩ := h
    subst h1
    exact absurd rfl hne
  · cases hidx : idx? m.files m.selected with
    | none =>
        simp only [openBranch, if_neg hemp, hidx] at h
        exact Option.noConfusion h
    | some f =>
        simp only [openBranch, if_neg hemp, hidx] at h
        by_cases hie : f.infoErr = true
        · simp only [if_pos hie, Option.some.injEq, Prod.mk.injEq] at h
          obtain ⟨h1, h2⟩ := h
          subst h1
          exact absurd rfl hne
        · simp only [if_neg hie] at h
          by_cases hsl : f.isSymlink = true
          · simp only [if_pos hsl] at h
            cases hstat : f.symlinkStat with
            | none =>
                rw [hstat] at h
                simp only [Option.some.injEq, Prod.mk.injEq] at h
                obtain ⟨h1, h2⟩ := h
                subst h1
                exact absurd rfl hne
            | some b =>
                rw [hstat] at h
                obtain ⟨hc, hm, hcmd⟩ :=
                  openResolved_path m k f (f.isDir || b) m1 c h hne
                refine ⟨f, f.isDir || b, rfl, by simpa using hie, ?_, hc, hm, hcmd⟩
                simp [effType?, hsl, hstat]
          · simp only [if_neg hsl] at h
            obtain ⟨hc, hm, hcmd⟩ := openResolved_path m k f f.isDir m1 c h hne
            refine ⟨f, f.isDir, rfl, by simpa using hie, ?_, hc, hm, hcmd⟩
            simp only [Bool.not_eq_true] at hsl
            simp [effType?, hsl]

theorem update_path_change (m : Model) (msg : Msg) (m1 : Model) (c : Cmd)
    (h : update m msg = Option.some (m1, c))
    (hne : m1.path ≠ m.path) :
    ∃ k f d, msg = Msg.keyMsg k ∧
      matchKey m.keyMap k = KeyAction.openKey ∧
      idx? m.files m.selected = Option.some f ∧ f.infoErr = false ∧
      effType? f = Option.some d ∧
      (((!d && m.fileAllowed) || (d && m.dirAllowed)) &&
        keyMatches k m.keyMap.select) = true ∧
      m1 = { m with path := joinPath m.currentDirectory f.name } ∧
      c = Cmd.quit := by
  cases msg with
  | readDirMsg entries =>
      simp only [update, Option.some.injEq, Prod.mk.injEq] at h
      obtain ⟨h1, h2⟩ := h; subst h1; exact absurd rfl hne
  | errorMsg e =>
      simp only [update, Option.some.injEq, Prod.mk.injEq] at h
      obtain ⟨h1, h2⟩ := h; subst h1; exact absurd rfl hne
  | windowSize hh ww =>
      by_cases hauto : m.autoHeight = true <;>
        simp only [update, hauto, if_true, if_false, Bool.false_eq_true,
          Option.some.injEq, Prod.mk.injEq] at h <;>
        (obtain ⟨h1, h2⟩ := h; subst h1; exact absurd rfl hne)
  | other =>
      simp only [update, Option.some.injEq, Prod.mk.injEq] at h
      obtain ⟨h1, h2⟩ := h; subst h1; exact absurd rfl hne
  | keyMsg k =>
      cases hmk : matchKey m.keyMap k with
      | goToTop =>
          simp only [update, hmk, Option.some.injEq, Prod.mk.injEq] at h
          obtain ⟨h1, h2⟩ := h; subst h1; exact absurd rfl hne
      | goToLast =>
          simp only [update, hmk, Option.some.injEq, Prod.mk.injEq] at h
          obtain ⟨h1, h2⟩ := h; subst h1; exact absurd rfl hne
      | down =>
          simp only [update, hmk] at h
          exact absurd (downBranch_path m k m1 c h).1 hne
      | up =>
          simp only [update, hmk] at h
          exact absurd (upBranch_path m k m1 c h).1 hne
      | pageDown =>
          simp only [update, hmk, Option.some.injEq, Prod.mk.injEq] at h
          obtain ⟨h1, h2⟩ := h; subst h1; exact absurd rfl hne
      | pageUp =>
          simp only [update, hmk, Option.some.injEq, Prod.mk.injEq] at h
          obtain ⟨h1, h2⟩ := h; subst h1; exact absurd rfl hne
      | back =>
          simp only [update, hmk] at h
          exact absurd (backBranch_path m k m1 c h) hne
      | openKey =>
          simp only [update, hmk] at h
          obtain ⟨f, d, k1, k2, k3, k4, k5, k6⟩ := openBranch_path m k m1 c h hne
          exact ⟨k, f, d, rfl, hmk, k1, k2, k3, k4, k5, k6⟩
      | noneAct =>
          simp only [update, hmk, Option.some.injEq, Prod.mk.injEq] at h
          obtain ⟨h1, h2⟩ := h; subst h1; exact absurd rfl hne

theorem didSelectFile_true (m : Model) (msg : Msg) (p : String)
    (h : didSelectFile m msg = Option.some (true, p)) : p = m.path := by
  simp only [didSelectFile] at h
  repeat' split at h
  all_goals
    first
      | exact Option.noConfusion h
      | (simp only [Option.some.injEq, Prod.mk.injEq] at h
         exact h.2.symm)
      | simp at h

theorem DidSelectFile_true (m : Model) (msg : Msg) (p : String)
    (h : DidSelectFile m msg = Option.some (true, p)) :
    didSelectFile m msg = Option.some (true, p) ∧ canSelect m p = true := by
  cases hds : didSelectFile m msg with
  | none =>
      simp only [DidSelectFile, hds] at h
      exact Option.noConfusion h
  | some dp =>
      obtain ⟨ds, p0⟩ := dp
      simp only [DidSelectFile, hds] at h
      split at h
      · simp only [Option.some.injEq, Prod.mk.injEq] at h
        obtain ⟨-, h2⟩ := h
        subst h2
        rename_i hc
        simp only [Bool.and_eq_true] at hc
        exact ⟨by rw [hc.1], hc.2⟩
      · simp at h

theorem canSelect_path_irrel (m : Model) (x file : String) :
    canSelect { m with path := x } file = canSelect m file := rfl

theorem selection_only_if (am : AppModel) (k : String) (am1 : AppModel) (c : Cmd)
    (hpath : am.fp.path = "")
    (hsel0 : am.selectedFile = "")
    (h : appUpdate am (Msg.keyMsg k) = Option.some (am1, c))
    (hne : am1.selectedFile ≠ "") :
    ∃ f d, matchKey am.fp.keyMap k = KeyAction.openKey ∧
      idx? am.fp.files am.fp.selected = Option.some f ∧
      f.infoErr = false ∧ effType? f = Option.some d ∧
      (((!d && am.fp.fileAllowed) || (d && am.fp.dirAllowed)) &&
        keyMatches k am.fp.keyMap.select) = true ∧
      canSelect am.fp (joinPath am.fp.currentDirectory f.name) = true ∧
      am1.selectedFile = joinPath am.fp.currentDirectory f.name ∧
      c = Cmd.quit := by
  simp only [appUpdate] at h
  split at h
  · simp only [Option.some.injEq, Prod.mk.injEq] at h
    obtain ⟨h1, h2⟩ := h
    subst h1
    exact absurd hsel0 hne
  · cases hupd : update am.fp (Msg.keyMsg k) with
    | none =>
        simp only [appUpdateCore, hupd] at h
        exact Option.noConfusion h
    | some p1 =>
        obtain ⟨fp1, cmd⟩ := p1
        cases hds : DidSelectFile fp1 (Msg.keyMsg k) with
        | none =>
            simp only [appUpdateCore, hupd, hds] at h
            exact Option.noConfusion h
        | some dp =>
            obtain ⟨didSel, p⟩ := dp
            simp only [appUpdateCore, hupd, hds, Option.some.injEq,
              Prod.mk.injEq] at h
            obtain ⟨h1, h2⟩ := h
            subst h1
            subst h2
            cases didSel with
            | false =>
                simp at hne
                exact absurd hsel0 hne
            | true =>
                simp at hne
                obtain ⟨hds2, hcs⟩ := DidSelectFile_true fp1 (Msg.keyMsg k) p hds
                have hp := didSelectFile_true fp1 (Msg.keyMsg k) p hds2
                have hchg : fp1.path ≠ am.fp.path := by
                  rw [← hp, hpath]
                  exact hne
                obtain ⟨k', f, d, hk', hmk, hidx, hinfo, heff, hcond, hfp1, hcmd⟩ :=
                  update_path_change am.fp (Msg.keyMsg k) fp1 cmd hupd hchg
                have hkk : k = k' := by injection hk'
                subst hkk
                have hpj : p = joinPath am.fp.currentDirectory f.name := by
                  rw [hp, hfp1]
                refine ⟨f, d, hmk, hidx, hinfo, heff, hcond, ?_, ?_, hcmd⟩
                · rw [← hpj]
                  rw [hfp1, canSelect_path_irrel] at hcs
                  exact hcs
                · exact hpj

theorem openFile_not_chooseable (m : Model) (k : String) (f : DirEntry)
    (hmk : matchKey m.keyMap k = KeyAction.openKey)
    (hidx : idx? m.files m.selected = Option.some f)
    (hinfo : f.infoErr = false)
    (heff : effType? f = Option.some false)
    (hfa : m.fileAllowed = false) :
    update m (Msg.keyMsg k) = Option.some (m, Cmd.none) := by
  have hne : ¬ (m.files.length = 0) := by
    have := idx?_ne_none_of_some hidx
    simpa [List.length_eq_zero] using this
  simp only [update, hmk, openBranch, if_neg hne, hidx, hinfo]
  cases hsl : f.isSymlink with
  | false =>
      have hd : f.isDir = false := by
        simpa [effType?, hsl] using heff
      simp [openResolved, hd, hfa]
  | true =>
      cases hstat : f.symlinkStat with
      | none => simp [effType?, hsl, hstat] at heff
      | some b =>
          have hd : (f.isDir || b) = false := by
            simpa [effType?, hsl, hstat] using heff
          simp [openResolved, hd, hfa]

theorem openSymlink_statFail (m : Model) (k : String) (f : DirEntry)
    (hmk : matchKey m.keyMap k = KeyAction.openKey)
    (hidx : idx? m.files m.selected = Option.some f)
    (hinfo : f.infoErr = false)
    (hsl : f.isSymlink = true)
    (hstat : f.symlinkStat = Option.none) :
    update m (Msg.keyMsg k) = Option.some (m, Cmd.none) := by
  have hne : ¬ (m.files.length = 0) := by
    have := idx?_ne_none_of_some hidx
    simpa [List.length_eq_zero] using this
  simp only [update, hmk, openBranch, if_neg hne, hidx, hinfo]
  simp [hsl, hstat]

theorem DidSelectDisabledFile_true (m : Model) (msg : Msg) (p : String)
    (h : DidSelectDisabledFile m msg = Option.some (true, p)) :
    didSelectFile m msg = Option.some (true, p) ∧ canSelect m p = false := by
  cases hds : didSelectFile m msg with
  | none =>
      simp only [DidSelectDisabledFile, hds] at h
      exact Option.noConfusion h
  | some dp =>
      obtain ⟨ds, p0⟩ := dp
      simp only [DidSelectDisabledFile, hds] at h
      split at h
      · simp only [Option.some.injEq, Prod.mk.injEq] at h
        obtain ⟨-, h2⟩ := h
        subst h2
        rename_i hc
        simp only [Bool.and_eq_true, Bool.not_eq_true'] at hc
        exact ⟨by rw [hc.1], hc.2⟩
      · simp at h

theorem didSelect_false_both (m : Model) (msg : Msg) (p : String)
    (h : didSelectFile m msg = Option.some (false, p)) :
    DidSelectFile m msg = Option.some (false, "") ∧
      DidSelectDisabledFile m msg = Option.some (false, "") := by
  constructor
  · simp [DidSelectFile, h]
  · simp [DidSelectDisabledFile, h]

theorem pageDown_eq (m : Model) (k : String)
    (hmk : matchKey m.keyMap k = KeyAction.pageDown) :
    update m (Msg.keyMsg k) =
      Option.some
        ({ m with
            selected := if m.selected + m.height ≥ (m.files.length : Int) then
                (m.files.length : Int) - 1
              else m.selected + m.height
            min := if m.max + m.height ≥ (m.files.length : Int) then
                ((m.files.length : Int) - 1) - m.height
              else m.min + m.height
            max := if m.max + m.height ≥ (m.files.length : Int) then
                (m.files.length : Int) - 1
              else m.max + m.height },
          Cmd.none) := by
  simp only [update, hmk]

theorem pageUp_eq (m : Model) (k : String)
    (hmk : matchKey m.keyMap k = KeyAction.pageUp) :
    update m (Msg.keyMsg k) =
      Option.some
        ({ m with
            selected := if m.selected - m.height < 0 then 0 else m.selected - m.height
            min := if m.min - m.height < 0 then 0 else m.min - m.height
            max := if m.min - m.height < 0 then m.height else m.max - m.height },
          Cmd.none) := by
  simp only [update, hmk]

/-- C1 (counterexample): with only `.md` selectable and `notes.txt`
highlighted (effective type File, chooseable, but not selectable), the
claim says the state is unchanged on confirm; the code instead records
`Path = /docs/notes.txt` and quits. -/
theorem C1_counterexample :
    effType? (plainFile "notes.txt") = Option.some false ∧
    mC1x.fileAllowed = true ∧
    canSelect mC1x (joinPath mC1x.currentDirectory "notes.txt") = false ∧
    update mC1x (Msg.keyMsg "enter") = Option.some (mC1post, Cmd.quit) ∧
    mC1post ≠ mC1x := by decide

/-- C1 (amended): the composed program reaches `Selected(resolvedPath)`
(a non-empty `selectedFile`) only if the highlighted entry's effective
type is chooseable and `canSelect` holds of the resolved full path; and
when the effective type is File but files are not chooseable, the state
is unchanged. (A chooseable File that merely fails the extension filter
still sets `Path` and quits — it just never becomes `Selected`.) -/
theorem C1_amended :
    (∀ (am : AppModel) (k : String) (am1 : AppModel) (c : Cmd),
      am.fp.path = "" → am.selectedFile = "" →
      appUpdate am (Msg.keyMsg k) = Option.some (am1, c) →
      am1.selectedFile ≠ "" →
      ∃ f d, matchKey am.fp.keyMap k = KeyAction.openKey ∧
        idx? am.fp.files am.fp.selected = Option.some f ∧
        f.infoErr = false ∧ effType? f = Option.some d ∧
        (((!d && am.fp.fileAllowed) || (d && am.fp.dirAllowed)) &&
          keyMatches k am.fp.keyMap.select) = true ∧
        canSelect am.fp (joinPath am.fp.currentDirectory f.name) = true ∧
        am1.selectedFile = joinPath am.fp.currentDirectory f.name ∧
        c = Cmd.quit) ∧
    (∀ (m : Model) (k : String) (f : DirEntry),
      matchKey m.keyMap k = KeyAction.openKey →
      idx? m.files m.selected = Option.some f →
      f.infoErr = false → effType? f = Option.some false →
      m.fileAllowed = false →
      update m (Msg.keyMsg k) = Option.some (m, Cmd.none)) :=
  ⟨fun am k am1 c h1 h2 h3 h4 => selection_only_if am k am1 c h1 h2 h3 h4,
   fun m k f h1 h2 h3 h4 h5 => openFile_not_chooseable m k f h1 h2 h3 h4 h5⟩

/-- C1 (witness): both amended directions at concrete inputs — a
successful `.md` selection satisfies every gate condition, and an
un-chooseable file press leaves the model untouched. -/
theorem C1_witness :
    (∃ f d, matchKey amC1w.fp.keyMap "enter" = KeyAction.openKey ∧
      idx? amC1w.fp.files amC1w.fp.selected = Option.some f ∧
      f.infoErr = false ∧ effType? f = Option.some d ∧
      (((!d && amC1w.fp.fileAllowed) || (d && amC1w.fp.dirAllowed)) &&
        keyMatches "enter" amC1w.fp.keyMap.select) = true ∧
      canSelect amC1w.fp (joinPath amC1w.fp.currentDirectory f.name) = true ∧
      amC1wPost.selectedFile = joinPath amC1w.fp.currentDirectory f.name ∧
      Cmd.quit = Cmd.quit) ∧
    update mC1nf (Msg.keyMsg "enter") = Option.some (mC1nf, Cmd.none) :=
  ⟨C1_amended.1 amC1w "enter" amC1wPost Cmd.quit rfl rfl (by decide) (by decide),
   C1_amended.2 mC1nf "enter" (plainFile "notes.txt") (by decide) (by decide)
     (by decide) (by decide) (by decide)⟩

/-- C2 (code evaluation at the failing input): on an empty listing,
`Down` and `Up` index the empty `files` slice (a Go runtime error,
modelled as `none`), `GoToLast` mutates the viewport to nonsense values
(`selected = -1`, `min = -height`), and only `Activate` is the no-op the
claim demands. -/
theorem C2_code_eval :
    mC2x.files = [] ∧
    update mC2x (Msg.keyMsg "j") = Option.none ∧
    update mC2x (Msg.keyMsg "k") = Option.none ∧
    update mC2x (Msg.keyMsg "G") =
      Option.some ({ mC2x with selected := -1, min := -3, max := -1 }, Cmd.none) ∧
    update mC2x (Msg.keyMsg "l") = Option.some (mC2x, Cmd.none) := by decide

/-- C3 (counterexample): from a freshly reset viewport over three files
with height 2, a single `PageDown` yields a window of width 3
(`min = 0`, `max = 2`), violating `max - min + 1 = height` even though
`len ≥ height`. -/
theorem C3_counterexample :
    viewInv mC3x = true ∧
    (mC3x.files.length : Int) ≥ mC3x.height ∧
    update mC3x (Msg.keyMsg "J") =
      Option.some ({ mC3x with selected := 2, min := 0, max := 2 }, Cmd.none) ∧
    ({ mC3x with selected := 2, min := 0, max := 2 } : Model).max -
        ({ mC3x with selected := 2, min := 0, max := 2 } : Model).min + 1 ≠
      mC3x.height := by decide

/-- C3 (amended): the containment invariant `min ≤ cursor ≤ max` with
window width equal to the height is preserved by every sequence of
MoveDown / MoveUp / GoToTop events from a well-formed viewport, and no
such sequence faults; it does not survive page, go-to-last, or resize
events (see the counterexample). -/
theorem C3_amended : ∀ (msgs : List Msg) (m : Model),
    m.keyMap = DefaultKeyMap →
    (∀ e ∈ msgs, e = Msg.keyMsg "j" ∨ e = Msg.keyMsg "k" ∨ e = Msg.keyMsg "g") →
    viewInv m = true →
    ∃ m2, updates m msgs = Option.some m2 ∧ viewInv m2 = true := by
  intro msgs
  induction msgs with
  | nil => exact fun m _ _ hInv => ⟨m, by simp [updates], hInv⟩
  | cons e rest ih =>
      intro m hkm hmv hInv
      have he := hmv e (by simp)
      have hrest : ∀ x ∈ rest,
          x = Msg.keyMsg "j" ∨ x = Msg.keyMsg "k" ∨ x = Msg.keyMsg "g" := by
        intro x hx
        exact hmv x (by simp [hx])
      rcases he with he | he | he
      · subst he
        have hmk : matchKey m.keyMap "j" = KeyAction.down := by rw [hkm]; decide
        obtain ⟨m1, h1, h2, h3⟩ := viewInv_down m "j" hmk hInv
        obtain ⟨m2, h4, h5⟩ := ih m1 (h3.trans hkm) hrest h2
        exact ⟨m2, by simp [updates, h1, h4], h5⟩
      · subst he
        have hmk : matchKey m.keyMap "k" = KeyAction.up := by rw [hkm]; decide
        obtain ⟨m1, h1, h2, h3⟩ := viewInv_up m "k" hmk hInv
        obtain ⟨m2, h4, h5⟩ := ih m1 (h3.trans hkm) hrest h2
        exact ⟨m2, by simp [updates, h1, h4], h5⟩
      · subst he
        have hmk : matchKey m.keyMap "g" = KeyAction.goToTop := by rw [hkm]; decide
        obtain ⟨m1, h1, h2, h3⟩ := viewInv_goToTop m "g" hmk hInv
        obtain ⟨m2, h4, h5⟩ := ih m1 (h3.trans hkm) hrest h2
        exact ⟨m2, by simp [updates, h1, h4], h5⟩

/-- C3 (witness): a concrete MoveDown + GoToTop run from the reset
viewport keeps the invariant. -/
theorem C3_witness :
    viewInv mC3x = true ∧
    (∃ m2, updates mC3x [Msg.keyMsg "j", Msg.keyMsg "g"] = Option.some m2 ∧
      viewInv m2 = true) :=
  ⟨by decide, C3_amended [Msg.keyMsg "j", Msg.keyMsg "g"] mC3x rfl (by decide)
    (by decide)⟩

/-- C4 (counterexample): while showing directory `/b`'s listing, the
delayed arrival of directory `/a`'s listing replaces it wholesale —
`readDirMsg` carries no directory identity, so the stale result is
honored, not discarded. -/
theorem C4_counterexample :
    mC4x.currentDirectory = "/b" ∧
    mC4x.files = [plainFile "b-entry"] ∧
    update mC4x (Msg.readDirMsg [plainFile "a-entry"]) =
      Option.some ({ mC4x with files := [plainFile "a-entry"], max := 2 },
        Cmd.none) ∧
    [plainFile "a-entry"] ≠ mC4x.files := by decide

/-- C4 (amended): every arriving `readDirMsg` unconditionally replaces
the current listing and resets `max`, regardless of which directory it
was read for — last arrival wins, with no stale-result discard. -/
theorem C4_amended : ∀ (m : Model) (entries : List DirEntry),
    update m (Msg.readDirMsg entries) =
      Option.some ({ m with files := entries, max := m.height - 1 }, Cmd.none) :=
  fun _ _ => rfl

/-- C5: for every chain of N descends (Activate events that take the
descend path) followed by N Back events, the viewport triple
(cursor, min, max) — and the navigation stacks — return exactly to their
initial values. -/
theorem C5_stack_symmetry (ks : List (String × DirEntry)) (m : Model)
    (hkm : m.keyMap = DefaultKeyMap)
    (hch : descChain m ks = true) :
    ∃ m2,
      updates m (ks.map (fun p => Msg.keyMsg p.1) ++
        List.replicate ks.length (Msg.keyMsg "h")) = Option.some m2 ∧
      m2.selected = m.selected ∧ m2.min = m.min ∧ m2.max = m.max ∧
      m2.selectedStack = m.selectedStack ∧ m2.minStack = m.minStack ∧
      m2.maxStack = m.maxStack ∧ m2.keyMap = m.keyMap ∧ m2.height = m.height := by
  induction ks generalizing m with
  | nil =>
      refine ⟨m, ?_, rfl, rfl, rfl, rfl, rfl, rfl, rfl, rfl⟩
      simp [updates]
  | cons kf ks ih =>
      obtain ⟨k, f⟩ := kf
      simp only [descChain, Bool.and_eq_true] at hch
      obtain ⟨hstep, hrest⟩ := hch
      simp only [descStep, Bool.and_eq_true, decide_eq_true_eq, Bool.not_eq_true',
        Bool.or_eq_true, Bool.not_eq_false'] at hstep
      obtain ⟨⟨⟨⟨⟨hf, hmk⟩, hinfo⟩, hsym⟩, heff⟩, hnsel⟩ := hstep
      have hsym' : f.isSymlink = true → f.symlinkStat ≠ Option.none := by
        intro hs
        rcases hsym with h | h
        · rw [hs] at h; cases h
        · simpa using h
      have hdesc := update_descend m k f hmk hf hinfo heff hsym' hnsel
      have hkm1 : (descModel m f).keyMap = DefaultKeyMap := hkm
      obtain ⟨m2, hupd, h1, h2, h3, h4, h5, h6, h7, h8⟩ := ih (descModel m f) hkm1 hrest
      have hback : matchKey m2.keyMap "h" = KeyAction.back := by
        rw [h7, hkm1]; decide
      have hs4 : m2.selectedStack = m.selectedStack ++ [m.selected] := h4
      have hs5 : m2.minStack = m.minStack ++ [m.min] := h5
      have hs6 : m2.maxStack = m.maxStack ++ [m.max] := h6
      have hpop := update_back_pop m2 "h" hback m.selected m.min m.max
        m.selectedStack m.minStack m.maxStack hs4 hs5 hs6
      refine ⟨{ m2 with
          currentDirectory := dirPath m2.currentDirectory
          pathUI := dirPath m2.currentDirectory
          selected := m.selected
          min := m.min
          max := m.max
          selectedStack := m.selectedStack
          minStack := m.minStack
          maxStack := m.maxStack }, ?_, rfl, rfl, rfl, rfl, rfl, rfl,
        h7.trans rfl, h8.trans rfl⟩
      simp only [List.map_cons, List.length_cons, List.replicate_succ']
      have hlist :
          (Msg.keyMsg k :: ks.map (fun p => Msg.keyMsg p.1)) ++
            (List.replicate ks.length (Msg.keyMsg "h") ++ [Msg.keyMsg "h"]) =
          Msg.keyMsg k ::
            ((ks.map (fun p => Msg.keyMsg p.1) ++
              List.replicate ks.length (Msg.keyMsg "h")) ++ [Msg.keyMsg "h"]) := by
        simp [List.append_assoc]
      rw [hlist]
      simp only [updates, hdesc]
      rw [updates_append, hupd]
      simp [updates, hpop]

/-- C5 (witness): one concrete descend into `sub` followed by one Back
restores the viewport and stacks of `mC5x`. -/
theorem C5_witness :
    descChain mC5x [("l", plainDir "sub")] = true ∧
    (∃ m2,
      updates mC5x ([("l", plainDir "sub")].map (fun p => Msg.keyMsg p.1) ++
        List.replicate ([("l", plainDir "sub")] : List (String × DirEntry)).length
          (Msg.keyMsg "h")) = Option.some m2 ∧
      m2.selected = mC5x.selected ∧ m2.min = mC5x.min ∧ m2.max = mC5x.max ∧
      m2.selectedStack = mC5x.selectedStack ∧ m2.minStack = mC5x.minStack ∧
      m2.maxStack = mC5x.maxStack ∧ m2.keyMap = mC5x.keyMap ∧
      m2.height = mC5x.height) :=
  ⟨by decide, C5_stack_symmetry [("l", plainDir "sub")] mC5x rfl (by decide)⟩

/-- C6: a Back event on an empty navigation stack faults nothing and
deterministically resets the viewport to `cursor = 0`, `min = 0`,
`max = height - 1`, re-triggering a read of the parent directory. -/
theorem C6_back_empty_stack : ∀ (m : Model) (k : String),
    matchKey m.keyMap k = KeyAction.back →
    m.selectedStack = [] →
    update m (Msg.keyMsg k) =
      Option.some
        ({ m with
            currentDirectory := dirPath m.currentDirectory
            pathUI := dirPath m.currentDirectory
            selected := 0
            min := 0
            max := m.height - 1 },
          Cmd.readDir (dirPath m.currentDirectory) m.showHidden) := by
  intro m k hmk hstack
  simp only [update, hmk, backBranch, hstack]
  simp

/-- C6 (witness): Back on `mC6x` (empty stack, scrolled viewport)
resets to the defaults. -/
theorem C6_witness :
    mC6x.selectedStack = [] ∧
    update mC6x (Msg.keyMsg "h") =
      Option.some
        ({ mC6x with
            currentDirectory := dirPath mC6x.currentDirectory
            pathUI := dirPath mC6x.currentDirectory
            selected := 0
            min := 0
            max := mC6x.height - 1 },
          Cmd.readDir (dirPath mC6x.currentDirectory) mC6x.showHidden) :=
  ⟨rfl, C6_back_empty_stack mC6x "h" (by decide) rfl⟩

/-- C7 (counterexample): from the reset viewport over three files with
height 2, `PageDown` clamps `max` to `len - 1 = 2` but sets
`min = max - height = 0`, not `max - height + 1 = 1` as the claim
states. -/
theorem C7_counterexample :
    mC7x.height = 2 ∧
    update mC7x (Msg.keyMsg "J") =
      Option.some ({ mC7x with selected := 2, min := 0, max := 2 }, Cmd.none) ∧
    ({ mC7x with selected := 2, min := 0, max := 2 } : Model).min ≠
      ({ mC7x with selected := 2, min := 0, max := 2 } : Model).max -
        mC7x.height + 1 := by decide

/-- C7 (amended): `PageDown` shifts cursor, min and max by the height,
clamping the cursor and `max` to `len - 1` on overflow and then setting
`min = max - height` (no `+ 1`, no clamp at 0); `PageUp` clamps the
cursor and `min` at 0 and on underflow sets `max = height`
(not `height - 1`). -/
theorem C7_amended :
    (∀ (m : Model) (k : String),
      matchKey m.keyMap k = KeyAction.pageDown →
      update m (Msg.keyMsg k) =
        Option.some
          ({ m with
              selected := if m.selected + m.height ≥ (m.files.length : Int) then
                  (m.files.length : Int) - 1
                else m.selected + m.height
              min := if m.max + m.height ≥ (m.files.length : Int) then
                  ((m.files.length : Int) - 1) - m.height
                else m.min + m.height
              max := if m.max + m.height ≥ (m.files.length : Int) then
                  (m.files.length : Int) - 1
                else m.max + m.height },
            Cmd.none)) ∧
    (∀ (m : Model) (k : String),
      matchKey m.keyMap k = KeyAction.pageUp →
      update m (Msg.keyMsg k) =
        Option.some
          ({ m with
              selected := if m.selected - m.height < 0 then 0
                else m.selected - m.height
              min := if m.min - m.height < 0 then 0 else m.min - m.height
              max := if m.min - m.height < 0 then m.height
                else m.max - m.height },
            Cmd.none)) :=
  ⟨fun m k h => pageDown_eq m k h, fun m k h => pageUp_eq m k h⟩

/-- C7 (witness): the page characterizations at the two concrete
models. -/
theorem C7_witness :
    update mC7x (Msg.keyMsg "J") =
      Option.some
        ({ mC7x with
            selected := if mC7x.selected + mC7x.height ≥ (mC7x.files.length : Int) then
                (mC7x.files.length : Int) - 1
              else mC7x.selected + mC7x.height
            min := if mC7x.max + mC7x.height ≥ (mC7x.files.length : Int) then
                ((mC7x.files.length : Int) - 1) - mC7x.height
              else mC7x.min + mC7x.height
            max := if mC7x.max + mC7x.height ≥ (mC7x.files.length : Int) then
                (mC7x.files.length : Int) - 1
              else mC7x.max + mC7x.height },
          Cmd.none) ∧
    update mC7y (Msg.keyMsg "K") =
      Option.some
        ({ mC7y with
            selected := if mC7y.selected - mC7y.height < 0 then 0
              else mC7y.selected - mC7y.height
            min := if mC7y.min - mC7y.height < 0 then 0 else mC7y.min - mC7y.height
            max := if mC7y.min - mC7y.height < 0 then mC7y.height
              else mC7y.max - mC7y.height },
          Cmd.none) :=
  ⟨C7_amended.1 mC7x "J" (by decide), C7_amended.2 mC7y "K" (by decide)⟩

/-- C8 (counterexample): a failed read (`errorMsg`) leaves the model
exactly as it was — the listing is not reset to empty, no error is
recorded anywhere (`Model` has no error field) — and on a model with an
empty listing a failure is literally indistinguishable from a
successful read of an empty directory. -/
theorem C8_counterexample :
    mC8a.files ≠ [] ∧
    update mC8a (Msg.errorMsg "permission denied") = Option.some (mC8a, Cmd.none) ∧
    update mC8b (Msg.errorMsg "permission denied") =
      update mC8b (Msg.readDirMsg []) := by decide

/-- C8 (amended): `Update` has no case for `errorMsg`, so every failed
directory read is silently swallowed: the state — listing included — is
returned unchanged with no command, and nothing is surfaced to the
caller. -/
theorem C8_amended : ∀ (m : Model) (e : String),
    update m (Msg.errorMsg e) = Option.some (m, Cmd.none) :=
  fun _ _ => rfl

/-- C9 (counterexample): activating a symlink whose resolution fails is
a complete no-op — it does not fall back to File behavior, although the
identical entry as a plain file would be selected (path set, quit). -/
theorem C9_counterexample :
    fC9bad.isSymlink = true ∧ fC9bad.symlinkStat = Option.none ∧
    mC9a.fileAllowed = true ∧
    canSelect mC9a (joinPath mC9a.currentDirectory fC9bad.name) = true ∧
    update mC9a (Msg.keyMsg "enter") = Option.some (mC9a, Cmd.none) ∧
    update mC9b (Msg.keyMsg "enter") = Option.some (mC9bPost, Cmd.quit) ∧
    mC9bPost ≠ mC9b := by decide

/-- C9 (amended): a symlink entry is treated as a Directory for descend
purposes when its target stats to a reachable directory; when
resolution fails, the Activate aborts as a no-op (neither File fallback
nor descend). -/
theorem C9_amended :
    (∀ (m : Model) (k : String) (f : DirEntry),
      matchKey m.keyMap k = KeyAction.openKey →
      idx? m.files m.selected = Option.some f →
      f.infoErr = false → f.isSymlink = true → f.symlinkStat = Option.none →
      update m (Msg.keyMsg k) = Option.some (m, Cmd.none)) ∧
    (∀ (m : Model) (k : String) (f : DirEntry),
      matchKey m.keyMap k = KeyAction.openKey →
      idx? m.files m.selected = Option.some f →
      f.infoErr = false → f.isSymlink = true → f.symlinkStat = Option.some true →
      (m.dirAllowed && keyMatches k m.keyMap.select) = false →
      update m (Msg.keyMsg k) =
        Option.some (descModel m f,
          Cmd.readDir (joinPath m.currentDirectory f.name) m.showHidden)) := by
  constructor
  · exact fun m k f h1 h2 h3 h4 h5 => openSymlink_statFail m k f h1 h2 h3 h4 h5
  · intro m k f h1 h2 h3 h4 h5 h6
    apply update_descend m k f h1 h2 h3
    · simp [effDir, h4, h5]
    · intro h
      rw [h5]
      simp
    · exact h6

/-- C9 (witness): the dangling symlink aborts as a no-op, and the
directory-target symlink descends. -/
theorem C9_witness :
    update mC9a (Msg.keyMsg "l") = Option.some (mC9a, Cmd.none) ∧
    update mC9c (Msg.keyMsg "l") =
      Option.some (descModel mC9c fC9dir,
        Cmd.readDir (joinPath mC9c.currentDirectory fC9dir.name) mC9c.showHidden) :=
  ⟨C9_amended.1 mC9a "l" fC9bad (by decide) (by decide) (by decide) (by decide)
      (by decide),
   C9_amended.2 mC9c "l" fC9dir (by decide) (by decide) (by decide) (by decide)
      (by decide) (by decide)⟩

/-- C10: `DidSelectFile` and `DidSelectDisabledFile` never both report a
selection for the same model and message, and whenever the underlying
`didSelectFile` test fails both return `(false, "")`. -/
theorem C10_select_exclusive : ∀ (m : Model) (msg : Msg),
    (¬ ∃ p q, DidSelectFile m msg = Option.some (true, p) ∧
      DidSelectDisabledFile m msg = Option.some (true, q)) ∧
    (∀ p, didSelectFile m msg = Option.some (false, p) →
      DidSelectFile m msg = Option.some (false, "") ∧
      DidSelectDisabledFile m msg = Option.some (false, "")) := by
  intro m msg
  constructor
  · rintro ⟨p, q, h1, h2⟩
    obtain ⟨hd1, hc1⟩ := DidSelectFile_true m msg p h1
    obtain ⟨hd2, hc2⟩ := DidSelectDisabledFile_true m msg q h2
    rw [hd1] at hd2
    simp only [Option.some.injEq, Prod.mk.injEq] at hd2
    obtain ⟨-, hpq⟩ := hd2
    rw [← hpq] at hc2
    rw [hc1] at hc2
    exact Bool.noConfusion hc2
  · exact fun p h => didSelect_false_both m msg p h

/-- C10 (witness): the exclusivity and the failure case at a concrete
model and a non-key message. -/
theorem C10_witness :
    (¬ ∃ p q, DidSelectFile mC10x Msg.other = Option.some (true, p) ∧
      DidSelectDisabledFile mC10x Msg.other = Option.some (true, q)) ∧
    (DidSelectFile mC10x Msg.other = Option.some (false, "") ∧
      DidSelectDisabledFile mC10x Msg.other = Option.some (false, "")) :=
  ⟨(C10_select_exclusive mC10x Msg.other).1,
   (C10_select_exclusive mC10x Msg.other).2 "" rfl⟩
